import Mathlib

/-!
Shallow embedding of the rust-log-analyzer (src/main.rs): a command-line
log analyzer that reads a file line by line, classifies each line by
severity via case-insensitive substring search, tallies per-level counts,
applies optional level/keyword filters, echoes matching lines when a
filter is active, and prints a summary with the level table sorted by
descending count.

Strings are modelled by Lean `String`; Rust's `to_uppercase`/`to_lowercase`
are modelled per-character (`Char.toUpper`/`Char.toLower`), which agrees
with Rust on ASCII input; `str::contains` is modelled by an executable
substring scan (`subOccurs`).  The `HashMap` tally is modelled as an
association list in insertion order (the map's iteration order is
unspecified in the source, and the spec leaves the resulting tie order
unspecified too).  I/O is modelled by passing the file-open result and the
per-line read results in explicitly as `Except` values; `main`'s `?`
propagation becomes `Except.error` results carrying the `context` message.
-/

namespace LogAnalyzer

/-- The five severity levels (`enum LogLevelFilter` in src/main.rs). -/
inductive LogLevelFilter where
  | Error
  | Warn
  | Info
  | Debug
  | Trace
deriving DecidableEq

/-- Per-character uppercasing, modelling `str::to_uppercase` (ASCII-faithful). -/
def toUpperStr (s : String) : String := ⟨s.data.map Char.toUpper⟩

/-- Per-character lowercasing, modelling `str::to_lowercase` (ASCII-faithful). -/
def toLowerStr (s : String) : String := ⟨s.data.map Char.toLower⟩

/-- `hasPre needle hay` is true when `needle` begins `hay`. -/
def hasPre : List Char → List Char → Bool
  | [], _ => true
  | _ :: _, [] => false
  | c :: cs, d :: ds => c == d && hasPre cs ds

/-- `subOccurs needle hay` is true when `needle` occurs contiguously in `hay`. -/
def subOccurs (needle : List Char) : List Char → Bool
  | [] => needle.isEmpty
  | d :: ds => hasPre needle (d :: ds) || subOccurs needle ds

/-- Model of Rust `hay.contains(needle)` substring search. -/
def strContains (hay needle : String) : Bool := subOccurs needle.data hay.data

/-- `fn parse_log_level(line: &str) -> Option<LogLevelFilter>`: uppercase the
line, then check for the five tokens in fixed priority order. -/
def parse_log_level (line : String) : Option LogLevelFilter :=
  let upper := toUpperStr line
  if strContains upper "ERROR" then some LogLevelFilter.Error
  else if strContains upper "WARN" then some LogLevelFilter.Warn
  else if strContains upper "INFO" then some LogLevelFilter.Info
  else if strContains upper "DEBUG" then some LogLevelFilter.Debug
  else if strContains upper "TRACE" then some LogLevelFilter.Trace
  else none

/-- Specification-side predicate: `tok` occurs in `line` ignoring case. -/
def occursCI (tok line : String) : Bool :=
  strContains (toUpperStr line) (toUpperStr tok)

/-- The parsed CLI configuration (`struct Args`): file path, optional level
filter, optional search term. -/
structure Config where
  file : String
  level : Option LogLevelFilter
  search : Option String
deriving DecidableEq

/-- The mutable state of the analysis loop: the `level_counts` tally (as an
association list in insertion order), `total_lines`, `matched_lines`, and
the lines echoed so far (each with the level used to colorize it). -/
structure ScanState where
  tally : List (LogLevelFilter × Nat)
  totalLines : Nat
  matchedLines : Nat
  echoed : List (Option LogLevelFilter × String)
deriving DecidableEq

/-- Initial loop state: empty tally, zero counters, nothing echoed. -/
def initState : ScanState := ⟨[], 0, 0, []⟩

/-- `*level_counts.entry(l).or_insert(0) += 1`: bump the count for `l`,
inserting it with count 1 when absent. -/
def tallyIncr : List (LogLevelFilter × Nat) → LogLevelFilter → List (LogLevelFilter × Nat)
  | [], l => [(l, 1)]
  | q :: rest, l => if q.1 = l then (q.1, q.2 + 1) :: rest else q :: tallyIncr rest l

/-- The statistics update of one iteration: tally the classified level, if any. -/
def stepTally (t : List (LogLevelFilter × Nat)) : Option LogLevelFilter → List (LogLevelFilter × Nat)
  | some l => tallyIncr t l
  | none => t

/-- The level filter: when `--level` is configured the classified level must
equal it exactly; with no `--level` every line passes. -/
def passesLevel (cfg : Config) (level : Option LogLevelFilter) : Bool :=
  match cfg.level with
  | some filterLevel => decide (some filterLevel = level)
  | none => true

/-- The keyword filter: when `--search` is configured the lowercased line must
contain the lowercased term; with no `--search` every line passes. -/
def passesSearch (cfg : Config) (line : String) : Bool :=
  match cfg.search with
  | some s => strContains (toLowerStr line) (toLowerStr s)
  | none => true

/-- `args.level.is_some() || args.search.is_some()`: whether any filter is active. -/
def filtersActive (cfg : Config) : Bool := cfg.level.isSome || cfg.search.isSome

/-- One iteration of the `for line_result in reader.lines()` loop body on a
successfully read line: count it, tally its level, then either skip
(`continue`) on a failed filter or bump `matched_lines` and echo the line
when a filter is active. -/
def stepLine (cfg : Config) (st : ScanState) (line : String) : ScanState :=
  if passesLevel cfg (parse_log_level line) && passesSearch cfg line then
    ⟨stepTally st.tally (parse_log_level line), st.totalLines + 1, st.matchedLines + 1,
      if filtersActive cfg then st.echoed ++ [(parse_log_level line, line)] else st.echoed⟩
  else
    ⟨stepTally st.tally (parse_log_level line), st.totalLines + 1, st.matchedLines, st.echoed⟩

/-- The whole scan over a list of successfully read lines. -/
def runScan (cfg : Config) (lines : List String) : ScanState :=
  lines.foldl (stepLine cfg) initState

/-- Sum of all counts stored in the tally. -/
def tallySum (t : List (LogLevelFilter × Nat)) : Nat := (t.map Prod.snd).sum

/-- The sort relation of `counts_vec.sort_by(|a, b| b.1.cmp(&a.1))`:
`a` comes before `b` when `a`'s count is at least `b`'s. -/
def countGe (a b : LogLevelFilter × Nat) : Prop := b.2 ≤ a.2

instance : DecidableRel countGe := fun a b => Nat.decLe b.2 a.2

instance : IsTotal (LogLevelFilter × Nat) countGe :=
  ⟨fun a b => Or.symm (Nat.le_total a.2 b.2)⟩

instance : IsTrans (LogLevelFilter × Nat) countGe :=
  ⟨fun _ _ _ h1 h2 => Nat.le_trans h2 h1⟩

/-- Sorting the tally entries by descending count (a stable sort, like
Rust's `sort_by`). -/
def sortByCountDesc (t : List (LogLevelFilter × Nat)) : List (LogLevelFilter × Nat) :=
  List.insertionSort countGe t

/-- One line of the final summary block. -/
inductive SummaryItem where
  | totalLine (n : Nat)
  | matchedLine (n : Nat)
  | emptyNotice
  | tableEntry (level : LogLevelFilter) (count : Nat)
deriving DecidableEq

/-- The literal notice printed when the tally is empty. -/
def emptyNoticeText : String := "  No recognizable log levels found."

/-- The summary block printed after the scan: total lines, the matched-lines
count only when a filter is active, then the level table sorted by
descending count, or the empty notice when there are no entries. -/
def summarize (cfg : Config) (st : ScanState) : List SummaryItem :=
  [SummaryItem.totalLine st.totalLines]
    ++ (if filtersActive cfg then [SummaryItem.matchedLine st.matchedLines] else [])
    ++ (if sortByCountDesc st.tally = [] then [SummaryItem.emptyNotice]
        else (sortByCountDesc st.tally).map (fun p => SummaryItem.tableEntry p.1 p.2))

/-- The scan over the raw per-line read results: the first read failure
aborts with the `context` message, discarding the state built so far. -/
def scanLines (cfg : Config) : ScanState → List (Except String String) → Except String ScanState
  | st, [] => Except.ok st
  | _, Except.error e :: _ =>
      Except.error ("Failed to read a line from the file: " ++ e)
  | st, Except.ok line :: rest => scanLines cfg (stepLine cfg st line) rest

/-- The whole of `fn main` after argument parsing, with I/O passed in
explicitly: `openResult` is the outcome of `File::open` (on success it
carries the per-line read results).  An `Except.error` result models the
non-zero exit with a single diagnostic and no summary. -/
def runMain (cfg : Config) (openResult : Except String (List (Except String String))) :
    Except String (ScanState × List SummaryItem) :=
  match openResult with
  | Except.error e =>
      Except.error ("Failed to open log file at \"" ++ cfg.file ++ "\": " ++ e)
  | Except.ok lineResults =>
      match scanLines cfg initState lineResults with
      | Except.error e2 => Except.error e2
      | Except.ok st => Except.ok (st, summarize cfg st)

/-! ### Component lemmas for one loop iteration -/

theorem stepLine_tally (cfg : Config) (st : ScanState) (line : String) :
    (stepLine cfg st line).tally = stepTally st.tally (parse_log_level line) := by
  unfold stepLine; split <;> rfl

theorem stepLine_totalLines (cfg : Config) (st : ScanState) (line : String) :
    (stepLine cfg st line).totalLines = st.totalLines + 1 := by
  unfold stepLine; split <;> rfl

theorem stepLine_matchedLines (cfg : Config) (st : ScanState) (line : String) :
    (stepLine cfg st line).matchedLines =
      if passesLevel cfg (parse_log_level line) && passesSearch cfg line
      then st.matchedLines + 1 else st.matchedLines := by
  unfold stepLine; split <;> simp_all

theorem stepLine_echoed (cfg : Config) (st : ScanState) (line : String) :
    (stepLine cfg st line).echoed =
      if (passesLevel cfg (parse_log_level line) && passesSearch cfg line)
          && filtersActive cfg
      then st.echoed ++ [(parse_log_level line, line)] else st.echoed := by
  unfold stepLine; split <;> rename_i h <;> simp [h]

theorem tallySum_tallyIncr (t : List (LogLevelFilter × Nat)) (l : LogLevelFilter) :
    tallySum (tallyIncr t l) = tallySum t + 1 := by
  induction t with
  | nil => rfl
  | cons q rest ih =>
    unfold tallyIncr
    split
    · simp [tallySum]; omega
    · simp [tallySum] at ih ⊢; omega

theorem tallySum_stepTally (t : List (LogLevelFilter × Nat)) (lvl : Option LogLevelFilter) :
    tallySum (stepTally t lvl) = tallySum t + (if lvl.isSome then 1 else 0) := by
  cases lvl <;> simp [stepTally, tallySum_tallyIncr]

/-- Counters accumulated by the loop over any list of lines, from any state. -/
theorem scan_counts (cfg : Config) (lines : List String) : ∀ st : ScanState,
    (lines.foldl (stepLine cfg) st).totalLines = st.totalLines + lines.length ∧
    tallySum (lines.foldl (stepLine cfg) st).tally =
      tallySum st.tally + lines.countP (fun l => (parse_log_level l).isSome) ∧
    (lines.foldl (stepLine cfg) st).matchedLines ≤ st.matchedLines + lines.length := by
  induction lines with
  | nil => intro st; simp
  | cons l rest ih =>
    intro st
    obtain ⟨h1, h2, h3⟩ := ih (stepLine cfg st l)
    refine ⟨?_, ?_, ?_⟩
    · rw [List.foldl_cons, h1, stepLine_totalLines, List.length_cons]; omega
    · rw [List.foldl_cons, h2, stepLine_tally, tallySum_stepTally, List.countP_cons]
      cases hpl : parse_log_level l <;> simp [hpl] <;> omega
    · rw [List.foldl_cons, List.length_cons]
      have hm : (stepLine cfg st l).matchedLines ≤ st.matchedLines + 1 := by
        rw [stepLine_matchedLines]; split <;> omega
      omega

/-- Claim C2: at every point of the scan the tally's total equals the number
of lines processed so far that classified to some level, hence it is at most
the number of lines processed, and matchedLines never exceeds totalLines. -/
theorem C2_tally_invariant (cfg : Config) (lines : List String) :
    tallySum (runScan cfg lines).tally =
      lines.countP (fun l => (parse_log_level l).isSome) ∧
    tallySum (runScan cfg lines).tally ≤ (runScan cfg lines).totalLines ∧
    (runScan cfg lines).matchedLines ≤ (runScan cfg lines).totalLines := by
  obtain ⟨h1, h2, h3⟩ := scan_counts cfg lines initState
  unfold runScan
  have hc : lines.countP (fun l => (parse_log_level l).isSome) ≤ lines.length :=
    List.countP_le_length _
  have h0t : initState.totalLines = 0 := rfl
  have h0m : initState.matchedLines = 0 := rfl
  have h0s : tallySum initState.tally = 0 := rfl
  rw [h0t] at h1
  rw [h0s] at h2
  rw [h0m] at h3
  refine ⟨by omega, by omega, by omega⟩

/-- The tally written by one iteration does not depend on the configuration. -/
theorem scan_tally_cfg_irrel (cfg1 cfg2 : Config) (lines : List String) :
    ∀ st1 st2 : ScanState, st1.tally = st2.tally →
    (lines.foldl (stepLine cfg1) st1).tally = (lines.foldl (stepLine cfg2) st2).tally := by
  induction lines with
  | nil => intro st1 st2 h; simpa using h
  | cons l rest ih =>
    intro st1 st2 h
    exact ih _ _ (by rw [stepLine_tally, stepLine_tally, h])

/-- Claim C7: the final tally is identical across runs that differ only in
their filter configuration — every classified line is counted before the
filters are applied, so filters never influence the tally. -/
theorem C7_tally_filter_independent (cfg1 cfg2 : Config) (lines : List String) :
    (runScan cfg1 lines).tally = (runScan cfg2 lines).tally :=
  scan_tally_cfg_irrel cfg1 cfg2 lines initState initState rfl

/-- Claim C1: the classifier checks the five tokens case-insensitively in the
fixed priority order Error, Warn, Info, Debug, Trace and returns the level of
the first token found; it returns none exactly when no token occurs in the
line (so a line containing both "ERROR" and "WARN" classifies as Error). -/
theorem C1_classifier_priority (line : String) :
    (occursCI "ERROR" line = true → parse_log_level line = some LogLevelFilter.Error) ∧
    (occursCI "ERROR" line = false → occursCI "WARN" line = true →
      parse_log_level line = some LogLevelFilter.Warn) ∧
    (occursCI "ERROR" line = false → occursCI "WARN" line = false →
      occursCI "INFO" line = true → parse_log_level line = some LogLevelFilter.Info) ∧
    (occursCI "ERROR" line = false → occursCI "WARN" line = false →
      occursCI "INFO" line = false → occursCI "DEBUG" line = true →
      parse_log_level line = some LogLevelFilter.Debug) ∧
    (occursCI "ERROR" line = false → occursCI "WARN" line = false →
      occursCI "INFO" line = false → occursCI "DEBUG" line = false →
      occursCI "TRACE" line = true → parse_log_level line = some LogLevelFilter.Trace) ∧
    (parse_log_level line = none ↔
      occursCI "ERROR" line = false ∧ occursCI "WARN" line = false ∧
      occursCI "INFO" line = false ∧ occursCI "DEBUG" line = false ∧
      occursCI "TRACE" line = false) := by
  have e1 : occursCI "ERROR" line = strContains (toUpperStr line) "ERROR" := by
    unfold occursCI; rfl
  have e2 : occursCI "WARN" line = strContains (toUpperStr line) "WARN" := by
    unfold occursCI; rfl
  have e3 : occursCI "INFO" line = strContains (toUpperStr line) "INFO" := by
    unfold occursCI; rfl
  have e4 : occursCI "DEBUG" line = strContains (toUpperStr line) "DEBUG" := by
    unfold occursCI; rfl
  have e5 : occursCI "TRACE" line = strContains (toUpperStr line) "TRACE" := by
    unfold occursCI; rfl
  rw [e1, e2, e3, e4, e5]
  unfold parse_log_level
  cases h1 : strContains (toUpperStr line) "ERROR" <;>
    cases h2 : strContains (toUpperStr line) "WARN" <;>
      cases h3 : strContains (toUpperStr line) "INFO" <;>
        cases h4 : strContains (toUpperStr line) "DEBUG" <;>
          cases h5 : strContains (toUpperStr line) "TRACE" <;>
            simp [h1, h2, h3, h4, h5]

/-- Claim C3: when a level filter is configured, a line whose classified level
differs from it (in particular any unclassified line) is skipped: matchedLines
is unchanged and nothing is emitted; with no level filter configured every
line passes the level filter. -/
theorem C3_level_filter_skip (cfg : Config) (st : ScanState) (line : String)
    (f : LogLevelFilter) (hf : cfg.level = some f)
    (hne : parse_log_level line ≠ some f) :
    ((stepLine cfg st line).matchedLines = st.matchedLines ∧
      (stepLine cfg st line).echoed = st.echoed) ∧
    ∀ cfg2 : Config, cfg2.level = none →
      passesLevel cfg2 (parse_log_level line) = true := by
  have hp : passesLevel cfg (parse_log_level line) = false := by
    simp only [passesLevel, hf]
    exact decide_eq_false (fun h => hne h.symm)
  refine ⟨⟨?_, ?_⟩, ?_⟩
  · rw [stepLine_matchedLines]; simp [hp]
  · rw [stepLine_echoed]; simp [hp]
  · intro cfg2 h2; simp [passesLevel, h2]

/-- Witness for C3 at a concrete skipped line. -/
theorem C3_level_filter_skip_witness :
    ((stepLine ⟨"app.log", some LogLevelFilter.Error, none⟩ initState "hello").matchedLines = 0 ∧
      (stepLine ⟨"app.log", some LogLevelFilter.Error, none⟩ initState "hello").echoed = []) ∧
    passesLevel ⟨"app.log", none, none⟩ (parse_log_level "hello") = true := by
  have h := C3_level_filter_skip ⟨"app.log", some LogLevelFilter.Error, none⟩ initState
    "hello" LogLevelFilter.Error rfl (by decide)
  exact ⟨⟨h.1.1, h.1.2⟩, h.2 ⟨"app.log", none, none⟩ rfl⟩

/-- With no filters configured, every iteration increments matchedLines and
echoes nothing. -/
theorem scan_no_filters (cfg : Config) (hl : cfg.level = none) (hs : cfg.search = none)
    (lines : List String) : ∀ st : ScanState,
    (lines.foldl (stepLine cfg) st).matchedLines = st.matchedLines + lines.length ∧
    (lines.foldl (stepLine cfg) st).totalLines = st.totalLines + lines.length ∧
    (lines.foldl (stepLine cfg) st).echoed = st.echoed := by
  have hfa : filtersActive cfg = false := by simp [filtersActive, hl, hs]
  induction lines with
  | nil => intro st; simp
  | cons l rest ih =>
    intro st
    obtain ⟨h1, h2, h3⟩ := ih (stepLine cfg st l)
    have hm : (stepLine cfg st l).matchedLines = st.matchedLines + 1 := by
      rw [stepLine_matchedLines]; simp [passesLevel, passesSearch, hl, hs]
    have he : (stepLine cfg st l).echoed = st.echoed := by
      rw [stepLine_echoed]; simp [hfa]
    refine ⟨?_, ?_, ?_⟩
    · rw [List.foldl_cons, h1, hm, List.length_cons]; omega
    · rw [List.foldl_cons, h2, stepLine_totalLines, List.length_cons]; omega
    · rw [List.foldl_cons, h3, he]

/-- Claim C6: with neither a level filter nor a search term configured,
matchedLines equals totalLines at the end of the scan and no per-line text
is echoed. -/
theorem C6_no_filters (cfg : Config) (lines : List String)
    (hl : cfg.level = none) (hs : cfg.search = none) :
    (runScan cfg lines).matchedLines = (runScan cfg lines).totalLines ∧
    (runScan cfg lines).totalLines = lines.length ∧
    (runScan cfg lines).echoed = [] := by
  obtain ⟨h1, h2, h3⟩ := scan_no_filters cfg hl hs lines initState
  unfold runScan
  have h0m : initState.matchedLines = 0 := rfl
  have h0t : initState.totalLines = 0 := rfl
  have h0e : initState.echoed = [] := rfl
  rw [h0m] at h1
  rw [h0t] at h2
  rw [h0e] at h3
  refine ⟨by omega, by omega, h3⟩

/-- Witness for C6 on a concrete two-line input. -/
theorem C6_no_filters_witness :
    (runScan ⟨"app.log", none, none⟩ ["a ERROR b", "plain"]).matchedLines =
      (runScan ⟨"app.log", none, none⟩ ["a ERROR b", "plain"]).totalLines ∧
    (runScan ⟨"app.log", none, none⟩ ["a ERROR b", "plain"]).totalLines = 2 ∧
    (runScan ⟨"app.log", none, none⟩ ["a ERROR b", "plain"]).echoed = [] :=
  C6_no_filters ⟨"app.log", none, none⟩ ["a ERROR b", "plain"] rfl rfl

/-! ### Substring facts -/

theorem subOccurs_nil_left (h : List Char) : subOccurs [] h = true := by
  cases h <;> simp [subOccurs, hasPre]

theorem hasPre_self_append (n b : List Char) : hasPre n (n ++ b) = true := by
  induction n with
  | nil => rfl
  | cons c cs ih => simp [hasPre, ih]

theorem subOccurs_here (n b : List Char) : subOccurs n (n ++ b) = true := by
  cases n with
  | nil => exact subOccurs_nil_left _
  | cons c cs =>
    have h := hasPre_self_append (c :: cs) b
    simp only [List.cons_append] at h
    simp [subOccurs, h]

theorem subOccurs_cons (n : List Char) (d : Char) (h : List Char)
    (hs : subOccurs n h = true) : subOccurs n (d :: h) = true := by
  simp [subOccurs, hs]

theorem subOccurs_mid (a n b : List Char) : subOccurs n (a ++ n ++ b) = true := by
  induction a with
  | nil => simpa using subOccurs_here n b
  | cons d ds ih => simpa using subOccurs_cons _ d _ ih

/-- A string occurs in any string of which it is a middle segment. -/
theorem strContains_mid (a n b : String) : strContains (a ++ n ++ b) n = true := by
  unfold strContains
  rw [String.data_append, String.data_append]
  exact subOccurs_mid a.data n.data b.data

/-- A read failure aborts the scan with the read-error context message,
however many lines were already processed: the state built so far is dropped. -/
theorem scanLines_read_error (cfg : Config) (e : String) (rest : List (Except String String)) :
    ∀ (pre : List String) (st : ScanState),
    scanLines cfg st (pre.map Except.ok ++ Except.error e :: rest) =
      Except.error ("Failed to read a line from the file: " ++ e) := by
  intro pre
  induction pre with
  | nil => intro st; rfl
  | cons l ls ih => intro st; simpa [scanLines] using ih (stepLine cfg st l)

/-- Counterexample to claim C4 as stated: a mid-scan read failure aborts with
the diagnostic "Failed to read a line from the file: ...", which names the
failed operation but not the configured path — "app.log" does not occur in
it — so the diagnostic does not name both the operation and the path. -/
theorem C4_counterexample :
    runMain ⟨"app.log", none, none⟩ (Except.ok [Except.error "device error"]) =
      Except.error "Failed to read a line from the file: device error" ∧
    strContains "Failed to read a line from the file: device error" "app.log" = false :=
  ⟨rfl, by decide⟩

/-- Claim C4 (amended): if the file cannot be opened or any line read fails,
the run aborts immediately with a single contextual diagnostic — naming the
operation, and for open failures also the path — no summary is produced, and
the partial statistics of a mid-scan failure are discarded (the result
carries no state and no summary). -/
theorem C4_abort_on_failure (cfg : Config)
    (res : Except String (List (Except String String))) :
    (∀ e : String, res = Except.error e →
      runMain cfg res =
        Except.error ("Failed to open log file at \"" ++ cfg.file ++ "\": " ++ e) ∧
      strContains ("Failed to open log file at \"" ++ cfg.file ++ "\": " ++ e)
        cfg.file = true) ∧
    (∀ (pre : List String) (e : String) (rest : List (Except String String)),
      res = Except.ok (pre.map Except.ok ++ Except.error e :: rest) →
      runMain cfg res =
        Except.error ("Failed to read a line from the file: " ++ e)) ∧
    (∀ msg : String, runMain cfg res = Except.error msg →
      ∀ out : ScanState × List SummaryItem, runMain cfg res ≠ Except.ok out) := by
  refine ⟨?_, ?_, ?_⟩
  · intro e he
    subst he
    refine ⟨rfl, ?_⟩
    have hsh : "Failed to open log file at \"" ++ cfg.file ++ "\": " ++ e =
        "Failed to open log file at \"" ++ cfg.file ++ ("\": " ++ e) :=
      String.append_assoc _ _ _
    rw [hsh]
    exact strContains_mid "Failed to open log file at \"" cfg.file ("\": " ++ e)
  · intro pre e rest hres
    subst hres
    have hs := scanLines_read_error cfg e rest pre initState
    simp [runMain, hs]
  · intro msg hm out h
    rw [hm] at h
    exact Except.noConfusion h

/-- The search filter with an empty term passes every line. -/
theorem passesSearch_empty (fp : String) (lv : Option LogLevelFilter) (line : String) :
    passesSearch ⟨fp, lv, some ""⟩ line = true := by
  unfold passesSearch strContains
  exact subOccurs_nil_left _

/-- With no level filter and an empty search term, every iteration increments
matchedLines and echoes the line. -/
theorem scan_empty_search (fp : String) (lines : List String) : ∀ st : ScanState,
    (lines.foldl (stepLine ⟨fp, none, some ""⟩) st).matchedLines =
      st.matchedLines + lines.length ∧
    (lines.foldl (stepLine ⟨fp, none, some ""⟩) st).totalLines =
      st.totalLines + lines.length ∧
    (lines.foldl (stepLine ⟨fp, none, some ""⟩) st).echoed =
      st.echoed ++ lines.map (fun l => (parse_log_level l, l)) := by
  induction lines with
  | nil => intro st; simp
  | cons l rest ih =>
    intro st
    obtain ⟨h1, h2, h3⟩ := ih (stepLine ⟨fp, none, some ""⟩ st l)
    have hpass : (passesLevel ⟨fp, none, some ""⟩ (parse_log_level l) &&
        passesSearch ⟨fp, none, some ""⟩ l) = true := by
      rw [passesSearch_empty fp none l]
      simp [passesLevel]
    have hm : (stepLine ⟨fp, none, some ""⟩ st l).matchedLines = st.matchedLines + 1 := by
      rw [stepLine_matchedLines]; simp [hpass]
    have he : (stepLine ⟨fp, none, some ""⟩ st l).echoed =
        st.echoed ++ [(parse_log_level l, l)] := by
      rw [stepLine_echoed]; simp [hpass, filtersActive]
    refine ⟨?_, ?_, ?_⟩
    · rw [List.foldl_cons, h1, hm, List.length_cons]; omega
    · rw [List.foldl_cons, h2, stepLine_totalLines, List.length_cons]; omega
    · rw [List.foldl_cons, h3, he, List.map_cons, List.append_assoc]; rfl

/-- Claim C10: with an empty search term and no level filter, every line
passes the keyword filter, matchedLines equals totalLines, every line is
echoed, and the summary still reports the matched-lines count because the
empty term counts as an active filter. -/
theorem C10_empty_search (fp : String) (lines : List String) :
    (∀ line : String, passesSearch ⟨fp, none, some ""⟩ line = true) ∧
    (runScan ⟨fp, none, some ""⟩ lines).matchedLines =
      (runScan ⟨fp, none, some ""⟩ lines).totalLines ∧
    (runScan ⟨fp, none, some ""⟩ lines).echoed =
      lines.map (fun l => (parse_log_level l, l)) ∧
    SummaryItem.matchedLine (runScan ⟨fp, none, some ""⟩ lines).matchedLines ∈
      summarize ⟨fp, none, some ""⟩ (runScan ⟨fp, none, some ""⟩ lines) := by
  obtain ⟨h1, h2, h3⟩ := scan_empty_search fp lines initState
  have h0m : initState.matchedLines = 0 := rfl
  have h0t : initState.totalLines = 0 := rfl
  have h0e : initState.echoed = ([] : List (Option LogLevelFilter × String)) := rfl
  rw [h0m] at h1
  rw [h0t] at h2
  rw [h0e] at h3
  refine ⟨fun line => passesSearch_empty fp none line, ?_, ?_, ?_⟩
  · unfold runScan; omega
  · unfold runScan; rw [h3]; rfl
  · simp [summarize, filtersActive]

/-! ### Summary and tally-entry facts -/

theorem sortByCountDesc_nil_iff (t : List (LogLevelFilter × Nat)) :
    sortByCountDesc t = [] ↔ t = [] := by
  constructor
  · intro h
    have hl : (sortByCountDesc t).length = t.length :=
      List.length_insertionSort countGe t
    rw [h] at hl
    exact List.length_eq_zero.mp hl.symm
  · intro h; rw [h]; rfl

/-- Claim C5: the summary reports matchedLines exactly when a filter is
active, the level table is sorted by descending count, and an empty tally
produces the "no recognizable log levels" notice instead of a table. -/
theorem C5_summary_shape (cfg : Config) (st : ScanState) :
    (filtersActive cfg = false → ∀ n : Nat, SummaryItem.matchedLine n ∉ summarize cfg st) ∧
    (filtersActive cfg = true →
      SummaryItem.matchedLine st.matchedLines ∈ summarize cfg st) ∧
    List.Sorted countGe (sortByCountDesc st.tally) ∧
    (st.tally = [] →
      summarize cfg st =
        [SummaryItem.totalLine st.totalLines]
          ++ (if filtersActive cfg then [SummaryItem.matchedLine st.matchedLines] else [])
          ++ [SummaryItem.emptyNotice]) ∧
    (st.tally ≠ [] → SummaryItem.emptyNotice ∉ summarize cfg st) ∧
    strContains (toLowerStr emptyNoticeText) "no recognizable log levels" = true := by
  refine ⟨?_, ?_, ?_, ?_, ?_, by decide⟩
  · intro hfa n
    by_cases hc : sortByCountDesc st.tally = [] <;>
      simp [summarize, hfa, hc, List.mem_map]
  · intro hfa
    simp [summarize, hfa]
  · exact List.sorted_insertionSort countGe st.tally
  · intro ht
    have hs : sortByCountDesc st.tally = [] := (sortByCountDesc_nil_iff st.tally).mpr ht
    simp [summarize, hs]
  · intro ht
    have hs : sortByCountDesc st.tally ≠ [] :=
      fun h => ht ((sortByCountDesc_nil_iff st.tally).mp h)
    by_cases hfa : filtersActive cfg <;> simp [summarize, hfa, hs, List.mem_map]

/-- Claim C8: scenario A — the three-line input with no filters yields
totalLines 3, matchedLines 3, the tally Error 2 / Info 1 (the third line
matching "ERROR" case-insensitively), nothing echoed, and a summary whose
table lists Error(2) before Info(1) with no matched-lines item. -/
theorem C8_scenarioA :
    runScan ⟨"app.log", none, none⟩
        ["2024 ERROR disk full", "2024 INFO ok", "2024 error retry"] =
      ⟨[(LogLevelFilter.Error, 2), (LogLevelFilter.Info, 1)], 3, 3, []⟩ ∧
    summarize ⟨"app.log", none, none⟩
        (runScan ⟨"app.log", none, none⟩
          ["2024 ERROR disk full", "2024 INFO ok", "2024 error retry"]) =
      [SummaryItem.totalLine 3, SummaryItem.tableEntry LogLevelFilter.Error 2,
        SummaryItem.tableEntry LogLevelFilter.Info 1] :=
  ⟨by decide, by decide⟩

theorem mem_tallyIncr (t : List (LogLevelFilter × Nat)) (l : LogLevelFilter)
    (p : LogLevelFilter × Nat) (hp : p ∈ tallyIncr t l) : p.1 = l ∨ p ∈ t := by
  induction t with
  | nil =>
    simp [tallyIncr] at hp
    left; rw [hp]
  | cons q rest ih =>
    unfold tallyIncr at hp
    split at hp
    · rename_i hq
      rcases List.mem_cons.mp hp with h | h
      · left; rw [h]; exact hq
      · right; exact List.mem_cons_of_mem _ h
    · rcases List.mem_cons.mp hp with h | h
      · right; rw [h]; exact List.mem_cons_self _ _
      · rcases ih h with h1 | h1
        · left; exact h1
        · right; exact List.mem_cons_of_mem _ h1

theorem tallyIncr_pos (t : List (LogLevelFilter × Nat)) (l : LogLevelFilter)
    (h : ∀ p ∈ t, 1 ≤ p.2) : ∀ p ∈ tallyIncr t l, 1 ≤ p.2 := by
  induction t with
  | nil =>
    intro p hp
    simp [tallyIncr] at hp
    rw [hp]
  | cons q rest ih =>
    intro p hp
    unfold tallyIncr at hp
    split at hp
    · rcases List.mem_cons.mp hp with h1 | h1
      · rw [h1]; exact Nat.le_add_left 1 q.2
      · exact h p (List.mem_cons_of_mem _ h1)
    · rcases List.mem_cons.mp hp with h1 | h1
      · exact h p (h1 ▸ List.mem_cons_self _ _)
      · exact ih (fun r hr => h r (List.mem_cons_of_mem _ hr)) p h1

/-- Every count in the tally stays at least 1 throughout the scan. -/
theorem scan_tally_pos (cfg : Config) (lines : List String) : ∀ st : ScanState,
    (∀ p ∈ st.tally, 1 ≤ p.2) →
    ∀ p ∈ (lines.foldl (stepLine cfg) st).tally, 1 ≤ p.2 := by
  induction lines with
  | nil => intro st h; simpa using h
  | cons l rest ih =>
    intro st h
    refine ih (stepLine cfg st l) ?_
    rw [stepLine_tally]
    cases hpl : parse_log_level l with
    | none => simpa [stepTally] using h
    | some lv => simpa [stepTally] using tallyIncr_pos st.tally lv h

/-- Every tally key was produced by classifying one of the scanned lines. -/
theorem scan_tally_from_lines (cfg : Config) (lines : List String) : ∀ st : ScanState,
    ∀ p ∈ (lines.foldl (stepLine cfg) st).tally,
      p ∈ st.tally ∨ ∃ line ∈ lines, parse_log_level line = some p.1 := by
  induction lines with
  | nil => intro st p hp; left; simpa using hp
  | cons l rest ih =>
    intro st p hp
    rcases ih (stepLine cfg st l) p hp with h | h
    · rw [stepLine_tally] at h
      cases hpl : parse_log_level l with
      | none =>
        rw [hpl] at h
        left; simpa [stepTally] using h
      | some lv =>
        rw [hpl] at h
        simp only [stepTally] at h
        rcases mem_tallyIncr st.tally lv p h with h1 | h1
        · right; exact ⟨l, List.mem_cons_self _ _, by rw [hpl, h1]⟩
        · left; exact h1
    · right
      obtain ⟨line, hm, hplv⟩ := h
      exact ⟨line, List.mem_cons_of_mem _ hm, hplv⟩

/-- Claim C9: every level present as a key in the tally has count at least 1,
and only levels actually seen on some scanned line ever appear as keys, so
the final table never displays a level that was never seen. -/
theorem C9_tally_entries (cfg : Config) (lines : List String) :
    ∀ p ∈ (runScan cfg lines).tally,
      1 ≤ p.2 ∧ ∃ line ∈ lines, parse_log_level line = some p.1 := by
  intro p hp
  refine ⟨scan_tally_pos cfg lines initState (by simp [initState]) p hp, ?_⟩
  rcases scan_tally_from_lines cfg lines initState p hp with h | h
  · simp [initState] at h
  · exact h

/-- Witness for C9 at a concrete one-line run. -/
theorem C9_tally_entries_witness :
    1 ≤ (1 : Nat) ∧
    ∃ line ∈ ["boot ERROR now"], parse_log_level line = some LogLevelFilter.Error :=
  C9_tally_entries ⟨"app.log", none, none⟩ ["boot ERROR now"]
    (LogLevelFilter.Error, 1) (by decide)

end LogAnalyzer
